import Mathlib

/-!
Verification development for the udp_toolkit repository
(src/udp_toolkit_client.c, src/udp_toolkit_server.c).

Timestamps (C doubles holding monotonic seconds) are modelled as rationals;
the claims under study are about the exact arithmetic the code performs, not
about floating-point rounding.  Byte buffers are lists of naturals (< 256);
the 4-byte ints and 8-byte doubles that `memcpy` moves around are modelled by
their little-endian byte patterns, so `memcpy` round-trips are exact.
-/

namespace UdpToolkit

/-- Header constant from both C files: `#define HEADER_SIZE 20` with the
comment `Seq(4) + send_ts(8) + offset(8) + packet_size(4)` (which actually
sums to 24). -/
def HEADER_SIZE : ℕ := 20

/-! ### Clock synchronization (client `sync_clock_ntp`, server `handle_time_sync`) -/

/-- Server side, `udp_toolkit_server.c` `handle_time_sync`: the request (the
client's `t1`) is received into the first field of a three-double struct, the
server then fills `t2` and `t3` with two consecutive monotonic readings and
sends the WHOLE struct back, so the reply on the wire is the three doubles
`[t1, t2, t3]`. -/
def handle_time_sync (t1 t2 t3 : ℚ) : List ℚ := [t1, t2, t3]

/-- Client side, `udp_toolkit_client.c` `sync_clock_ntp`, given its recorded
send time `t1`, the reply datagram (a list of doubles) and its recorded
receive time `t4`: it extracts `t2` with `memcpy(&t2, buffer, sizeof(t2))`,
i.e. from byte offset 0 of the reply (the FIRST double), sets `t3 = t2`, and
returns `((t2 - t1) + (t3 - t4)) / 2`. -/
def sync_clock_ntp (t1 : ℚ) (reply : List ℚ) (t4 : ℚ) : ℚ :=
  let t2 := reply.getD 0 0
  let t3 := t2
  ((t2 - t1) + (t3 - t4)) / 2

/-- Client side with the receive outcome made explicit: on a `recvfrom`
failure (in particular the 5 s `SO_RCVTIMEO` timeout) the C function prints
to stderr and returns `0.0`; otherwise it returns the computed offset.  The
caller `main` stores this return value and unconditionally proceeds to the
send loop with it. -/
def sync_clock_ntp_run (recvOk : Bool) (t1 t4 : ℚ) (reply : List ℚ) : ℚ :=
  if recvOk then sync_clock_ntp t1 reply t4 else 0

/-- Modelled from the spec: the NTP offset formula `((t2 - t1) + (t3 - t4))/2`
with `t2`, `t3` the responder's own timestamps — the value the spec says
`synchronize` returns.  Kept separate from `sync_clock_ntp` (the code) so the
two can be compared. -/
def specNtpOffset (t1 t2 t3 t4 : ℚ) : ℚ :=
  ((t2 - t1) + (t3 - t4)) / 2

/-! ### Wire codec (client `main` build, server `main` parse) -/

/-- Little-endian byte serialization of a `w`-byte unsigned value, the effect
of `memcpy` from an integer (or of the 64-bit pattern of a double) into the
packet buffer on a little-endian host. -/
def toBytesLE : ℕ → ℕ → List ℕ
  | 0, _ => []
  | w + 1, n => n % 256 :: toBytesLE w (n / 256)

/-- Reassembling a little-endian byte list into the value it encodes, the
effect of `memcpy` back out of the receive buffer. -/
def fromBytesLE : List ℕ → ℕ
  | [] => 0
  | b :: bs => b + 256 * fromBytesLE bs

/-- Client `main`, packet construction (source lines 255–259):
`seq` at offset 0 (4 bytes), `send_ts` at 4 (8 bytes), `offset` at 12
(8 bytes), `current_packet_size` at 20 (4 bytes), and the rest of the
`packet_size`-byte buffer is the zero filler from `memset`.  `ts` and `off`
stand for the 64-bit patterns of the two doubles. -/
def encode_packet (seq ts off psize : ℕ) : List ℕ :=
  toBytesLE 4 seq ++ toBytesLE 8 ts ++ toBytesLE 8 off ++ toBytesLE 4 psize ++
    List.replicate (psize - 24) 0

/-- Server `main`, parse (source lines 146–154): reads `seq` at offset 0,
`send_ts` at 4, `offset` at 12 and `reported_size` at 20, mirroring the
`pos` increments of the C code. -/
def decode_packet (buf : List ℕ) : ℕ × ℕ × ℕ × ℕ :=
  (fromBytesLE (buf.take 4),
   fromBytesLE ((buf.drop 4).take 8),
   fromBytesLE ((buf.drop 12).take 8),
   fromBytesLE ((buf.drop 20).take 4))

/-- Server `main`, acceptance guard (source line 141): a received datagram of
`n` bytes enters the analysis branch iff `n >= HEADER_SIZE`. -/
def packet_accepted (n : ℕ) : Bool := decide (HEADER_SIZE ≤ n)

/-! ### Receiver analysis state (server `main`, locals of the event loop) -/

/-- The mutable analysis state of the server's `main`: `start_sec` and
`last_sec` are timestamps, `bytes_interval`/`total_bytes`/`total_packets`
are `uint64_t` counters, `last_seq` is the C `int` last sequence number with
`-1` as the "unset" sentinel, `total_gaps` the C `int` gap counter. -/
structure ServerState where
  start_sec : ℚ
  last_sec : ℚ
  bytes_interval : ℕ
  total_bytes : ℕ
  total_packets : ℕ
  last_seq : ℤ
  total_gaps : ℤ
  deriving DecidableEq

/-- Initial state at server start (source lines 65–72): both timestamps are
the start instant, all counters 0, `last_seq = -1`. -/
def initServerState (t0 : ℚ) : ServerState :=
  ⟨t0, t0, 0, 0, 0, -1, 0⟩

/-- Server `main`, data-socket branch (source lines 140–197) for a datagram
of received length `n` whose parsed sequence number is `q`: if
`n >= HEADER_SIZE` the packet counter is bumped, the gap check runs against
the old `last_seq`, `last_seq` is unconditionally set to `q`, and `n` is
added to both byte counters; otherwise the datagram is only logged and the
state is untouched.  The record update is simultaneous but equivalent to the
C statement order, since each field is read before it is written. -/
def server_process_datagram (s : ServerState) (n : ℕ) (q : ℤ) : ServerState :=
  if HEADER_SIZE ≤ n then
    { s with
      total_packets := s.total_packets + 1,
      total_gaps :=
        if s.last_seq ≠ -1 ∧ q ≠ s.last_seq + 1 then
          if 0 < q - s.last_seq - 1 then s.total_gaps + (q - s.last_seq - 1)
          else s.total_gaps
        else s.total_gaps,
      last_seq := q,
      bytes_interval := s.bytes_interval + n,
      total_bytes := s.total_bytes + n }
  else s

/-- Server `main`, throughput sampling block (source lines 200–223), run with
the monotonic reading `now`: if at least one second elapsed since `last_sec`,
emit the pair (sample throughput, cumulative average throughput) in bits per
second, zero `bytes_interval` and advance `last_sec` to `now`; otherwise emit
nothing and leave the state alone. -/
def server_sampling (s : ServerState) (now : ℚ) : ServerState × Option (ℚ × ℚ) :=
  if 1 ≤ now - s.last_sec then
    ({ s with bytes_interval := 0, last_sec := now },
     some (((s.bytes_interval : ℚ) * 8) / (now - s.last_sec),
           ((s.total_bytes : ℚ) * 8) / (now - s.start_sec)))
  else (s, none)

/-- A gap-detection run over a stream of sequence numbers, each carried by a
well-formed 1000-byte datagram, starting from the fresh server state. -/
def server_run_stream (seqs : List ℤ) : ServerState :=
  seqs.foldl (fun s q => server_process_datagram s 1000 q) (initServerState 0)

/-- A run of the datagram-processing branch over an arbitrary arrival trace
of (received length, parsed sequence) pairs from an arbitrary state. -/
def server_run_trace (s : ServerState) (tr : List (ℕ × ℤ)) : ServerState :=
  tr.foldl (fun s p => server_process_datagram s p.1 p.2) s

/-! ### Reactor (server `main`, the `select` loop) -/

/-- One readiness event that wakes the server's blocking `select` (which has
a NULL timeout, source line 120): either a clock-sync request or a data
datagram; `now` is the monotonic reading the ensuing sampling block makes. -/
inductive REvent
  | syncReq (now : ℚ)
  | dataPkt (n : ℕ) (q : ℤ) (now : ℚ)

/-- One iteration of the server loop after `select` returns: sync requests
are answered by `handle_time_sync`, which touches none of the analysis
state; data datagrams go through `server_process_datagram`; either way the
sampling block then runs once. -/
def reactorStep (s : ServerState) (e : REvent) : ServerState × Option (ℚ × ℚ) :=
  match e with
  | .syncReq now => server_sampling s now
  | .dataPkt n q now => server_sampling (server_process_datagram s n q) now

/-- The server loop over a finite trace of readiness events, collecting the
emitted throughput samples.  With a NULL `select` timeout the loop body runs
exactly once per readiness event, so the trace fully determines the run. -/
def reactor_run (s : ServerState) : List REvent → ServerState × List (ℚ × ℚ)
  | [] => (s, [])
  | e :: es =>
    let p := reactorStep s e
    let rest := reactor_run p.1 es
    (rest.1, match p.2 with | none => rest.2 | some smp => smp :: rest.2)

/-! ### Sender pacing and send loop (client `main`) -/

/-- Client `calculate_interval` (source lines 108–112):
`(packet_size * 8.0) / bandwidth` seconds per packet. -/
def calculate_interval (packet_size bandwidth : ℕ) : ℚ :=
  ((packet_size : ℚ) * 8) / (bandwidth : ℚ)

/-- The sender loop's mutable locals (source lines 238–242): the next
sequence number `seq`, the consecutive-failure counter `retry_count`, the
scheduled time of the next send, and whether a non-transient send error has
broken out of the loop. -/
structure SendState where
  seq : ℕ
  retry_count : ℕ
  next_send_time : ℚ
  aborted : Bool
  deriving DecidableEq

/-- Loop locals right before the first iteration:
`seq = 0`, `retry_count = 0`, `next_send_time = start_time`. -/
def initSendState (start : ℚ) : SendState :=
  ⟨0, 0, start, false⟩

/-- Outcome of one pass through the send-loop body. -/
inductive SendOutcome
  | sent
  | retried
  | dropped
  | aborted
  deriving DecidableEq

/-- Result of one `sendto` attempt on the non-blocking data socket:
success, `EAGAIN`/`EWOULDBLOCK`, or any other error. -/
inductive SendResult
  | ok
  | again
  | err
  deriving DecidableEq

/-- One pass through the send-loop body (source lines 246–313) given the
`sendto` outcome.  On success: `retry_count = 0`, `seq++`, and
`next_send_time = start_time + seq * interval` with the incremented `seq` —
the target is recomputed from the fixed `start_time` only.  On
`EAGAIN`: `retry_count++`; if it now exceeds 5 the packet is dropped,
`retry_count` resets and `seq++` (the `continue` skips the schedule update);
otherwise the same packet is retried immediately (the `usleep` between
retries is commented out in the source).  Any other error `break`s. -/
def sendStep (start interval : ℚ) (s : SendState) (r : SendResult) :
    SendState × SendOutcome :=
  match r with
  | .ok =>
    ({ s with
        retry_count := 0,
        seq := s.seq + 1,
        next_send_time := start + ((s.seq + 1 : ℕ) : ℚ) * interval },
     SendOutcome.sent)
  | .again =>
    if 5 < s.retry_count + 1 then
      ({ s with retry_count := 0, seq := s.seq + 1 }, SendOutcome.dropped)
    else
      ({ s with retry_count := s.retry_count + 1 }, SendOutcome.retried)
  | .err => ({ s with aborted := true }, SendOutcome.aborted)

/-- The send loop over a list of successive `sendto` outcomes: a
non-transient error aborts the loop, every other outcome continues it.
(The loop in the source is additionally time-bounded; the list stands for
the attempts that happen before the duration expires.) -/
def run_send (start interval : ℚ) (s : SendState) : List SendResult → SendState
  | [] => s
  | r :: rs =>
    let p := sendStep start interval s r
    if p.2 = SendOutcome.aborted then p.1 else run_send start interval p.1 rs

/-- The sequence numbers consumed by completed packets (transmitted or
dropped) over a run, in order: the value of `seq` attached to each packet
that the loop finished with, whether by a successful `sendto` or by giving
up after the retries. -/
def sent_or_dropped_seqs (start interval : ℚ) (s : SendState) :
    List SendResult → List ℕ
  | [] => []
  | r :: rs =>
    let p := sendStep start interval s r
    if p.2 = SendOutcome.aborted then []
    else if p.2 = SendOutcome.sent ∨ p.2 = SendOutcome.dropped then
      s.seq :: sent_or_dropped_seqs start interval p.1 rs
    else sent_or_dropped_seqs start interval p.1 rs

/-! ### Helper lemmas -/

lemma toBytesLE_length (w : ℕ) : ∀ n : ℕ, (toBytesLE w n).length = w := by
  induction w with
  | zero => intro n; rfl
  | succ w ih => intro n; simp [toBytesLE, ih]

lemma fromBytesLE_toBytesLE (w : ℕ) : ∀ n : ℕ, n < 256 ^ w →
    fromBytesLE (toBytesLE w n) = n := by
  induction w with
  | zero =>
    intro n h
    simp only [pow_zero, Nat.lt_one_iff] at h
    simp [h, toBytesLE, fromBytesLE]
  | succ w ih =>
    intro n h
    have hdiv : n / 256 < 256 ^ w := by
      rw [Nat.div_lt_iff_lt_mul (by norm_num : 0 < 256)]
      calc n < 256 ^ (w + 1) := h
        _ = 256 ^ w * 256 := pow_succ 256 w
    simp only [toBytesLE, fromBytesLE, ih (n / 256) hdiv]
    omega

lemma server_process_datagram_gaps_mono (s : ServerState) (n : ℕ) (q : ℤ) :
    s.total_gaps ≤ (server_process_datagram s n q).total_gaps := by
  unfold server_process_datagram
  split
  · dsimp only
    split
    · split
      · omega
      · exact le_refl _
    · exact le_refl _
  · exact le_refl _

lemma server_run_trace_gaps_mono (tr : List (ℕ × ℤ)) : ∀ s : ServerState,
    s.total_gaps ≤ (server_run_trace s tr).total_gaps := by
  induction tr with
  | nil => intro s; exact le_refl _
  | cons p tr ih =>
    intro s
    exact le_trans (server_process_datagram_gaps_mono s p.1 p.2)
      (ih (server_process_datagram s p.1 p.2))

/-- The state reached after a successful send of the packet numbered `s.seq`. -/
def afterOk (start iv : ℚ) (s : SendState) : SendState :=
  { s with
    retry_count := 0,
    seq := s.seq + 1,
    next_send_time := start + ((s.seq + 1 : ℕ) : ℚ) * iv }

lemma run_send_ok_cons (start iv : ℚ) (s : SendState) (rs : List SendResult) :
    run_send start iv s (SendResult.ok :: rs)
      = run_send start iv (afterOk start iv s) rs := rfl

lemma run_send_err_cons (start iv : ℚ) (s : SendState) (rs : List SendResult) :
    run_send start iv s (SendResult.err :: rs) = { s with aborted := true } := rfl

lemma run_send_again_cons (start iv : ℚ) (s : SendState) (rs : List SendResult) :
    run_send start iv s (SendResult.again :: rs)
      = if 5 < s.retry_count + 1 then
          run_send start iv { s with retry_count := 0, seq := s.seq + 1 } rs
        else
          run_send start iv { s with retry_count := s.retry_count + 1 } rs := by
  by_cases h : 5 < s.retry_count + 1
  · rw [if_pos h]
    simp [run_send, sendStep, if_pos h]
  · rw [if_neg h]
    simp [run_send, sendStep, if_neg h]

lemma run_send_ok_pair (start iv : ℚ) : ∀ (n : ℕ) (s : SendState),
    (run_send start iv s (List.replicate n SendResult.ok)).seq = s.seq + n ∧
    (run_send start iv s (List.replicate (n + 1) SendResult.ok)).next_send_time
      = start + ((s.seq + n + 1 : ℕ) : ℚ) * iv := by
  intro n
  induction n with
  | zero =>
    intro s
    refine ⟨rfl, ?_⟩
    show (afterOk start iv s).next_send_time = start + ((s.seq + 0 + 1 : ℕ) : ℚ) * iv
    show start + ((s.seq + 1 : ℕ) : ℚ) * iv = start + ((s.seq + 0 + 1 : ℕ) : ℚ) * iv
    push_cast
    ring
  | succ n ih =>
    intro s
    constructor
    · rw [List.replicate_succ, run_send_ok_cons, (ih (afterOk start iv s)).1]
      show s.seq + 1 + n = s.seq + (n + 1)
      omega
    · rw [List.replicate_succ, run_send_ok_cons, (ih (afterOk start iv s)).2]
      show start + ((s.seq + 1 + n + 1 : ℕ) : ℚ) * iv
        = start + ((s.seq + (n + 1) + 1 : ℕ) : ℚ) * iv
      push_cast
      ring

lemma sent_or_dropped_seqs_ok_cons (start iv : ℚ) (s : SendState)
    (rs : List SendResult) :
    sent_or_dropped_seqs start iv s (SendResult.ok :: rs)
      = s.seq :: sent_or_dropped_seqs start iv (afterOk start iv s) rs := rfl

lemma sent_or_dropped_seqs_err_cons (start iv : ℚ) (s : SendState)
    (rs : List SendResult) :
    sent_or_dropped_seqs start iv s (SendResult.err :: rs) = [] := rfl

lemma sent_or_dropped_seqs_again_cons (start iv : ℚ) (s : SendState)
    (rs : List SendResult) :
    sent_or_dropped_seqs start iv s (SendResult.again :: rs)
      = if 5 < s.retry_count + 1 then
          s.seq :: sent_or_dropped_seqs start iv
            { s with retry_count := 0, seq := s.seq + 1 } rs
        else
          sent_or_dropped_seqs start iv
            { s with retry_count := s.retry_count + 1 } rs := by
  by_cases h : 5 < s.retry_count + 1
  · rw [if_pos h]
    simp [sent_or_dropped_seqs, sendStep, if_pos h]
  · rw [if_neg h]
    simp [sent_or_dropped_seqs, sendStep, if_neg h]

lemma sent_or_dropped_seqs_range (start iv : ℚ) :
    ∀ (rs : List SendResult) (s : SendState),
    sent_or_dropped_seqs start iv s rs
      = List.range' s.seq (sent_or_dropped_seqs start iv s rs).length := by
  intro rs
  induction rs with
  | nil => intro s; rfl
  | cons r rs ih =>
    intro s
    match r with
    | SendResult.ok =>
      rw [sent_or_dropped_seqs_ok_cons, List.length_cons, List.range'_succ]
      exact congrArg (List.cons s.seq) (ih (afterOk start iv s))
    | SendResult.again =>
      by_cases h5 : 5 < s.retry_count + 1
      · rw [sent_or_dropped_seqs_again_cons, if_pos h5, List.length_cons,
          List.range'_succ]
        exact congrArg (List.cons s.seq) (ih { s with retry_count := 0, seq := s.seq + 1 })
      · rw [sent_or_dropped_seqs_again_cons, if_neg h5]
        exact ih { s with retry_count := s.retry_count + 1 }
    | SendResult.err =>
      rw [sent_or_dropped_seqs_err_cons]
      rfl

lemma decode_packet_append (A B C D E : List ℕ)
    (hA : A.length = 4) (hB : B.length = 8) (hC : C.length = 8)
    (hD : D.length = 4) :
    decode_packet (A ++ (B ++ (C ++ (D ++ E))))
      = (fromBytesLE A, fromBytesLE B, fromBytesLE C, fromBytesLE D) := by
  have hAB : (A ++ B).length = 12 := by rw [List.length_append, hA, hB]
  have hABC : ((A ++ B) ++ C).length = 20 := by
    rw [List.length_append, hAB, hC]
  have e2 : (A ++ (B ++ (C ++ (D ++ E)))).drop 4 = B ++ (C ++ (D ++ E)) :=
    List.drop_left' hA
  have e4 : (A ++ (B ++ (C ++ (D ++ E)))).drop 12 = C ++ (D ++ E) := by
    rw [← List.append_assoc]
    exact List.drop_left' hAB
  have e6 : (A ++ (B ++ (C ++ (D ++ E)))).drop 20 = D ++ E := by
    rw [← List.append_assoc, ← List.append_assoc]
    exact List.drop_left' hABC
  unfold decode_packet
  rw [List.take_left' hA, e2, e4, e6, List.take_left' hB, List.take_left' hC,
    List.take_left' hD]

lemma decode_encode (seq ts off psize : ℕ)
    (h1 : seq < 256 ^ 4) (h2 : ts < 256 ^ 8) (h3 : off < 256 ^ 8)
    (h4 : psize < 256 ^ 4) :
    decode_packet (encode_packet seq ts off psize) = (seq, ts, off, psize) := by
  have h := decode_packet_append (toBytesLE 4 seq) (toBytesLE 8 ts)
    (toBytesLE 8 off) (toBytesLE 4 psize) (List.replicate (psize - 24) 0)
    (toBytesLE_length 4 seq) (toBytesLE_length 8 ts) (toBytesLE_length 8 off)
    (toBytesLE_length 4 psize)
  unfold encode_packet
  rw [List.append_assoc, List.append_assoc, List.append_assoc, h,
    fromBytesLE_toBytesLE 4 seq h1, fromBytesLE_toBytesLE 8 ts h2,
    fromBytesLE_toBytesLE 8 off h3, fromBytesLE_toBytesLE 4 psize h4]

/-! ### Claim theorems -/

/-- C1: the claim states that a completed exchange returns
`((t2 - t1) + (t3 - t4)) / 2` with `t2 = t3` the responder's arrival
timestamp taken from the reply, so with the server clock 100 ms ahead and
zero symmetric delay the offset should be `+0.100 s`.  On the code this
fails: the reply datagram is `[t1, t2, t3]` and the client reads its `t2`
from byte offset 0, i.e. it gets the echoed `t1`.  Concretely, with the
request sent at client time `t1 = 10`, arriving at server clock
`t2 = t3 = 10.1`, and the reply received at client time `t4 = 10`, the code
computes offset `0`, while the claimed formula gives `1/10`. -/
theorem C1_sync_offset_reads_wrong_field :
    sync_clock_ntp 10 (handle_time_sync 10 (101 / 10) (101 / 10)) 10 = 0
    ∧ specNtpOffset 10 (101 / 10) (101 / 10) 10 = 1 / 10
    ∧ ((0 : ℚ) ≠ 1 / 10) := by
  refine ⟨?_, ?_, ?_⟩ <;>
    norm_num [sync_clock_ntp, handle_time_sync, specNtpOffset]

/-- C2: the claim states that `synchronize` either returns a measured offset
or fails with `TimeoutError`, never proceeding silently with a fabricated
offset.  On the code this fails: when `recvfrom` errors out (the 5 s socket
timeout), `sync_clock_ntp` returns the fabricated value `0.0` — for every
`t1`, `t4` and reply — and `main` proceeds into the send loop with it.  The
second conjunct shows the fabricated value is indistinguishable from a
genuine measurement: a completed exchange between perfectly synchronized
clocks returns the same `0`. -/
theorem C2_timeout_fabricates_zero_offset :
    (∀ (t1 t4 : ℚ) (reply : List ℚ), sync_clock_ntp_run false t1 t4 reply = 0)
    ∧ sync_clock_ntp_run true 10 10 (handle_time_sync 10 10 10) = 0 := by
  constructor
  · intro t1 t4 reply
    rfl
  · norm_num [sync_clock_ntp_run, sync_clock_ntp, handle_time_sync]

/-- C3: the claim states that a received datagram is rejected exactly when
its length is below the fixed 24-byte header.  On the code this fails: the
guard is `n >= HEADER_SIZE` with `HEADER_SIZE = 20`, even though the parsed
header fields span 4 + 8 + 8 + 4 = 24 bytes (as the constant's own comment
says), so a 22-byte datagram is accepted and fully processed — its
`reported_size` field is read from bytes 20–23, beyond the received data. -/
theorem C3_undersized_datagram_accepted :
    packet_accepted 22 = true
    ∧ 22 < 24
    ∧ HEADER_SIZE = 20
    ∧ (server_process_datagram (initServerState 0) 22 0).total_packets = 1 := by
  refine ⟨rfl, by norm_num, rfl, by decide⟩

/-- C4 counterexample: the claim asserts that the sequence stream
`[0, 2, 1, 3]` yields `totalGaps == 1`.  On the code it yields 2: the jump
0→2 adds one gap, the out-of-order 1 adds nothing but resets `last_seq` to
1, after which the jump 1→3 adds one more. -/
theorem C4_stream_0213_yields_two_gaps :
    (server_run_stream [0, 2, 1, 3]).total_gaps ≠ 1 := by decide

/-- C4 (amended): per received packet of length `20 + k` (i.e. any accepted
length), when `lastSeq` is set (`≠ -1`): a forward jump past `lastSeq + 1`
adds exactly `seq - lastSeq - 1` to `totalGaps` and anything else (including
every `seq ≤ lastSeq`) leaves it unchanged; `lastSeq` is unconditionally set
to `seq`; `totalGaps` never decreases over any arrival trace; the stream
`[0, 1, 2, 5, 6]` yields 2 gaps; and the stream `[0, 2, 1, 3]` yields 2
gaps (not 1 as originally claimed). -/
theorem C4_gap_detection (s : ServerState) (k : ℕ) (q : ℤ) (tr : List (ℕ × ℤ)) :
    (server_process_datagram s (20 + k) q).total_gaps
      = (if s.last_seq ≠ -1 ∧ s.last_seq + 1 < q
         then s.total_gaps + (q - s.last_seq - 1)
         else s.total_gaps)
    ∧ (server_process_datagram s (20 + k) q).last_seq = q
    ∧ s.total_gaps ≤ (server_run_trace s tr).total_gaps
    ∧ (server_run_stream [0, 1, 2, 5, 6]).total_gaps = 2
    ∧ (server_run_stream [0, 2, 1, 3]).total_gaps = 2 := by
  have h20 : HEADER_SIZE ≤ 20 + k := Nat.le_add_right 20 k
  refine ⟨?_, ?_, server_run_trace_gaps_mono tr s, by decide, by decide⟩
  · unfold server_process_datagram
    rw [if_pos h20]
    dsimp only
    by_cases hset : s.last_seq ≠ -1 ∧ q ≠ s.last_seq + 1
    · rw [if_pos hset]
      by_cases hfwd : 0 < q - s.last_seq - 1
      · rw [if_pos hfwd, if_pos ⟨hset.1, by omega⟩]
      · rw [if_neg hfwd, if_neg (fun hc => hfwd (by omega))]
    · rw [if_neg hset, if_neg (fun hc => hset ⟨hc.1, by omega⟩)]
  · unfold server_process_datagram
    rw [if_pos h20]

/-- C5: the codec round-trips: for all in-range field values (4-byte `seq`
and `psize`, 8-byte patterns `ts` and `off`, packet size at least the
24-byte header) the encoded datagram has length `psize`, is accepted by the
receiver's length guard, and decodes back to exactly
`(seq, ts, off, psize)`. -/
theorem C5_codec_roundtrip (seq ts off psize : ℕ)
    (h1 : seq < 2 ^ 32) (h2 : ts < 2 ^ 64) (h3 : off < 2 ^ 64)
    (h4 : psize < 2 ^ 32) (h5 : 24 ≤ psize) :
    (encode_packet seq ts off psize).length = psize
    ∧ packet_accepted (encode_packet seq ts off psize).length = true
    ∧ decode_packet (encode_packet seq ts off psize) = (seq, ts, off, psize) := by
  have hlen : (encode_packet seq ts off psize).length = psize := by
    simp [encode_packet, toBytesLE_length]
    omega
  refine ⟨hlen, ?_, ?_⟩
  · rw [hlen]
    simp only [packet_accepted, HEADER_SIZE, decide_eq_true_eq]
    omega
  · have e32 : (2 : ℕ) ^ 32 = 256 ^ 4 := by norm_num
    have e64 : (2 : ℕ) ^ 64 = 256 ^ 8 := by norm_num
    rw [e32] at h1 h4
    rw [e64] at h2 h3
    exact decode_encode seq ts off psize h1 h2 h3 h4

/-- C5 witness: the round-trip theorem applied at the concrete packet
`(seq, ts, off, psize) = (1, 2, 3, 30)`. -/
theorem C5_codec_roundtrip_witness :
    (1 < 2 ^ 32 ∧ 2 < 2 ^ 64 ∧ 3 < 2 ^ 64 ∧ 30 < 2 ^ 32 ∧ 24 ≤ 30)
    ∧ ((encode_packet 1 2 3 30).length = 30
      ∧ packet_accepted (encode_packet 1 2 3 30).length = true
      ∧ decode_packet (encode_packet 1 2 3 30) = (1, 2, 3, 30)) :=
  ⟨by norm_num,
   C5_codec_roundtrip 1 2 3 30 (by norm_num) (by norm_num) (by norm_num)
     (by norm_num) (by norm_num)⟩

/-- C6: the nominal interval is `packetSizeBytes * 8 / bandwidthBitsPerSec`;
the schedule update after a successful send of packet `seq` sets the next
target to `start_time + (seq + 1) * interval`; and after `n` consecutive
successful sends from the loop start the scheduled target is exactly
`start_time + n * interval`.  The schedule state in the embedding takes no
clock reading as input, so the target is a function of the fixed start time
and the packet count only, never of a previous packet's actual send time. -/
theorem C6_pacer_fixed_schedule (ps bw : ℕ) (start : ℚ) (s : SendState)
    (n : ℕ) :
    calculate_interval ps bw = ((ps : ℚ) * 8) / (bw : ℚ)
    ∧ (sendStep start (calculate_interval ps bw) s SendResult.ok).1.next_send_time
        = start + ((s.seq + 1 : ℕ) : ℚ) * calculate_interval ps bw
    ∧ (run_send start (calculate_interval ps bw) (initSendState start)
          (List.replicate n SendResult.ok)).next_send_time
        = start + (n : ℚ) * calculate_interval ps bw := by
  refine ⟨rfl, rfl, ?_⟩
  cases n with
  | zero =>
    show start = start + ((0 : ℕ) : ℚ) * calculate_interval ps bw
    norm_num
  | succ m =>
    rw [(run_send_ok_pair start (calculate_interval ps bw) m
      (initSendState start)).2]
    show start + ((0 + m + 1 : ℕ) : ℚ) * calculate_interval ps bw
      = start + ((m + 1 : ℕ) : ℚ) * calculate_interval ps bw
    push_cast
    ring

/-- C7: a successful send consumes one sequence number and resets the retry
counter; an `EAGAIN` outcome drops the packet exactly when the counter
exceeds 5 (so a fresh packet survives 5 consecutive retries with `seq`
unchanged and is dropped, with its number consumed, on the 6th); a dropped
packet does not abort the loop; any other send error aborts the loop
immediately, leaving the rest of the attempt list unprocessed; and over any
attempt list the sequence numbers attached to completed (sent or dropped)
packets are exactly `0, 1, 2, ...` with no sender-side gaps. -/
theorem C7_send_failure_handling (start iv : ℚ) (s : SendState)
    (rs : List SendResult) :
    ((sendStep start iv s SendResult.ok).1.seq = s.seq + 1
      ∧ (sendStep start iv s SendResult.ok).1.retry_count = 0)
    ∧ (sendStep start iv s SendResult.again).2
        = (if 5 < s.retry_count + 1 then SendOutcome.dropped
           else SendOutcome.retried)
    ∧ (run_send start iv { s with retry_count := 0 }
        (List.replicate 5 SendResult.again)).seq = s.seq
    ∧ (run_send start iv { s with retry_count := 0 }
        (List.replicate 6 SendResult.again)).seq = s.seq + 1
    ∧ (run_send start iv { s with retry_count := 0 }
        (List.replicate 6 SendResult.again)).aborted = s.aborted
    ∧ (sendStep start iv s SendResult.err).2 = SendOutcome.aborted
    ∧ run_send start iv s (SendResult.err :: rs) = { s with aborted := true }
    ∧ sent_or_dropped_seqs start iv (initSendState start) rs
        = List.range (sent_or_dropped_seqs start iv (initSendState start) rs).length := by
  refine ⟨⟨rfl, rfl⟩, ?_, rfl, rfl, rfl, rfl, rfl, ?_⟩
  · by_cases h : 5 < s.retry_count + 1
    · rw [if_pos h]
      simp [sendStep, if_pos h]
    · rw [if_neg h]
      simp [sendStep, if_neg h]
  · rw [List.range_eq_range']
    exact sent_or_dropped_seqs_range start iv rs (initSendState start)

/-- C8: whenever the sampling check runs with at least one second elapsed
since `last_sec` (the window start), the emitted sample is
`bytesInWindow * 8 / elapsed` with `elapsed = now - windowStart` the true
elapsed time, the cumulative average is `totalBytes * 8 / (now -
sessionStart)`, and immediately afterwards `bytesInWindow = 0` and the
window start has advanced to `now`, while the cumulative counters and the
session start are untouched. -/
theorem C8_throughput_sampling (s : ServerState) (now : ℚ)
    (h : 1 ≤ now - s.last_sec) :
    (server_sampling s now).2
      = some (((s.bytes_interval : ℚ) * 8) / (now - s.last_sec),
              ((s.total_bytes : ℚ) * 8) / (now - s.start_sec))
    ∧ (server_sampling s now).1.bytes_interval = 0
    ∧ (server_sampling s now).1.last_sec = now
    ∧ (server_sampling s now).1.total_bytes = s.total_bytes
    ∧ (server_sampling s now).1.start_sec = s.start_sec := by
  unfold server_sampling
  rw [if_pos h]
  exact ⟨rfl, rfl, rfl, rfl, rfl⟩

/-- A concrete receiver state used to instantiate the sampling theorem:
session started at 0, window started at 1, 800 bytes in the window, 1600
bytes and 3 packets in total, `last_seq = 4`, no gaps. -/
def sampleStateEx : ServerState := ⟨0, 1, 800, 1600, 3, 4, 0⟩

/-- C8 witness: the sampling theorem applied at `sampleStateEx` with the
check running at `now = 5/2` (elapsed 3/2 ≥ 1). -/
theorem C8_throughput_sampling_witness :
    1 ≤ (5 / 2 : ℚ) - sampleStateEx.last_sec
    ∧ ((server_sampling sampleStateEx (5 / 2)).2
        = some (((sampleStateEx.bytes_interval : ℚ) * 8)
                  / ((5 / 2 : ℚ) - sampleStateEx.last_sec),
                ((sampleStateEx.total_bytes : ℚ) * 8)
                  / ((5 / 2 : ℚ) - sampleStateEx.start_sec))
      ∧ (server_sampling sampleStateEx (5 / 2)).1.bytes_interval = 0
      ∧ (server_sampling sampleStateEx (5 / 2)).1.last_sec = 5 / 2
      ∧ (server_sampling sampleStateEx (5 / 2)).1.total_bytes
          = sampleStateEx.total_bytes
      ∧ (server_sampling sampleStateEx (5 / 2)).1.start_sec
          = sampleStateEx.start_sec) :=
  ⟨by norm_num [sampleStateEx],
   C8_throughput_sampling sampleStateEx (5 / 2) (by norm_num [sampleStateEx])⟩

/-- C9: a datagram whose received length is below the acceptance threshold
is only logged: the whole analysis state — `last_seq`, `total_gaps`,
`bytes_interval`, `total_bytes`, `total_packets` and the timestamps — is
exactly what it was before. -/
theorem C9_rejected_datagram_no_effect (s : ServerState) (n : ℕ) (q : ℤ)
    (h : n < HEADER_SIZE) :
    server_process_datagram s n q = s := by
  unfold server_process_datagram
  rw [if_neg (Nat.not_le.mpr h)]

/-- C9 witness: the spec's own test case, a 10-byte datagram against the
fresh receiver state. -/
theorem C9_rejected_datagram_no_effect_witness :
    10 < HEADER_SIZE
    ∧ server_process_datagram (initServerState 0) 10 7 = initServerState 0 :=
  ⟨by norm_num [HEADER_SIZE],
   C9_rejected_datagram_no_effect (initServerState 0) 10 7
     (by norm_num [HEADER_SIZE])⟩

/-- C10: the sampling condition is evaluated once per reactor iteration, and
an iteration happens only when the indefinitely-blocking `select` (NULL
timeout) reports a readiness event; hence over an empty event trace no
sample is ever emitted — no matter how much time passes, since time enters
the loop only through the per-event clock readings — and over any trace at
most one sample is emitted per event. -/
theorem C10_samples_only_on_arrivals (s : ServerState) (es : List REvent) :
    (reactor_run s []).2 = []
    ∧ ((reactor_run s es).2).length ≤ es.length := by
  refine ⟨rfl, ?_⟩
  induction es generalizing s with
  | nil => exact le_refl 0
  | cons e es ih =>
    simp only [reactor_run]
    cases hp : (reactorStep s e).2 with
    | none =>
      simp only [hp, List.length_cons]
      exact le_trans (ih _) (Nat.le_succ _)
    | some smp =>
      simp only [hp, List.length_cons]
      exact Nat.succ_le_succ (ih _)

end UdpToolkit
